import Mathlib

/-!
# Verification of the distributed-der control plane core

A shallow embedding, in Lean 4, of the parts of the `distributed-der`
repository that its specification's testable properties talk about:

* `sim_core/src/lib.rs` — the pure physics tick (`tick_asset`, `soc_bounds`);
* `der_headend/src/main.rs` — the simulator dispatch gate
  (`Simulator::set_dispatch`), the site allocator
  (`compute_site_allocations`), the pending-setpoint drain performed by the
  `Register` handler, the SOC zone event detector (`maybe_emit_soc_event`)
  and the bootstrap responder (`build_bootstrap_response`).

`f64` values are modelled as exact rationals (`ℚ`); the one claim that is
specifically about IEEE NaN is settled against a dedicated model in which the
requested megawatt value may be NaN and comparisons follow IEEE semantics
(every comparison involving NaN is false).  UUIDs, timestamps and other
opaque identifiers are modelled as natural numbers.  Rust `HashMap`s are
modelled as functions `ℕ → Option _`.
-/

/-- Rust `f64::clamp(self, lo, hi)` for rationals.  Rust panics when
`lo > hi`; theorems that depend on the clamp carry hypotheses keeping the
call inside the panic-free domain wherever the bounds may be inverted. -/
def clampQ (x lo hi : ℚ) : ℚ := max lo (min hi x)

/-- `sim_core::Asset` — configuration record of one battery asset.
UUID fields are naturals, names are strings, all `f64` fields rationals. -/
structure Asset where
  id : ℕ
  site_id : ℕ
  site_name : String
  name : String
  location : String
  capacity_mwhr : ℚ
  max_mw : ℚ
  min_mw : ℚ
  min_soc_pct : ℚ
  max_soc_pct : ℚ
  efficiency : ℚ
  ramp_rate_mw_per_min : ℚ
deriving Repr, DecidableEq

/-- `sim_core::BessState` — mutable per-asset state. -/
structure BessState where
  soc_mwhr : ℚ
  current_mw : ℚ
  setpoint_mw : ℚ
deriving Repr, DecidableEq

/-- `sim_core::Telemetry` — the snapshot returned by `tick_asset`.
`timestamp` (`Utc::now()` in Rust) is an abstract natural passed in by the
caller of the embedded tick. -/
structure Telemetry where
  asset_id : ℕ
  site_id : ℕ
  site_name : String
  timestamp : ℕ
  soc_mwhr : ℚ
  soc_pct : ℚ
  capacity_mwhr : ℚ
  current_mw : ℚ
  setpoint_mw : ℚ
  max_mw : ℚ
  min_mw : ℚ
  status : String
deriving Repr, DecidableEq

/-- The `1e-6` epsilon used by the boundary clamp, the SOC dispatch gate,
the SOC zone detector and the allocator's residual tolerance. -/
def epsQ : ℚ := 1 / 1000000

/-- `sim_core::soc_bounds` — derive the (min, max) SOC band in MWh from the
asset's capacity and percentage band, exactly as the Rust function does
(clamping percentages into [0,100], capacity into [0,∞), and falling back to
`(0, cap)` when the band is inverted). -/
def soc_bounds (asset : Asset) : ℚ × ℚ :=
  let cap := max asset.capacity_mwhr 0
  let min_pct := clampQ asset.min_soc_pct 0 100
  let max_pct := clampQ asset.max_soc_pct 0 100
  let min_mwhr := cap * min_pct / 100
  let max_mwhr := cap * max_pct / 100
  if min_mwhr ≤ max_mwhr then (min_mwhr, max_mwhr) else (0, cap)

/-- `sim_core::tick_asset` — advance one asset state by `dt_secs` seconds and
return the new state together with the telemetry snapshot.  The Rust function
mutates `state` in place; here the new state is returned.  `now` stands for
`Utc::now()`. -/
def tick_asset (asset : Asset) (state : BessState) (dt_secs : ℚ) (now : ℕ) :
    BessState × Telemetry :=
  let ramp_per_sec := asset.ramp_rate_mw_per_min / 60
  let target := state.setpoint_mw
  let delta := target - state.current_mw
  let max_delta := ramp_per_sec * dt_secs
  let applied_delta := clampQ delta (-max_delta) max_delta
  let current1 := clampQ (state.current_mw + applied_delta) asset.min_mw asset.max_mw
  let energy_delta_mwh := current1 * dt_secs / 3600
  let eff := asset.efficiency
  let adjusted := if energy_delta_mwh ≥ 0 then energy_delta_mwh / eff else energy_delta_mwh * eff
  let b := soc_bounds asset
  let soc1 := clampQ (state.soc_mwhr - adjusted) b.1 b.2
  let pair : ℚ × ℚ :=
    if soc1 ≤ b.1 + epsQ ∧ current1 > 0 then (0, 0)
    else if soc1 ≥ b.2 - epsQ ∧ current1 < 0 then (0, 0)
    else (state.setpoint_mw, current1)
  let setpoint2 := pair.1
  let current2 := pair.2
  let status := if current2 > 1/10 then "discharging"
    else if current2 < -(1/10) then "charging" else "idle"
  let state' : BessState :=
    { soc_mwhr := soc1, current_mw := current2, setpoint_mw := setpoint2 }
  (state',
   { asset_id := asset.id
     site_id := asset.site_id
     site_name := asset.site_name
     timestamp := now
     soc_mwhr := soc1
     soc_pct := if asset.capacity_mwhr > 0
       then clampQ (soc1 / asset.capacity_mwhr * 100) 0 100 else 0
     capacity_mwhr := asset.capacity_mwhr
     current_mw := current2
     setpoint_mw := setpoint2
     max_mw := asset.max_mw
     min_mw := asset.min_mw
     status := status })

/-! ## Basic clamp lemmas -/

theorem clampQ_mem (x lo hi : ℚ) (h : lo ≤ hi) :
    lo ≤ clampQ x lo hi ∧ clampQ x lo hi ≤ hi := by
  unfold clampQ
  constructor
  · exact le_max_left _ _
  · exact max_le h (min_le_left _ _)

theorem clampQ_abs_le (d b : ℚ) (hb : 0 ≤ b) : |clampQ d (-b) b| ≤ b := by
  unfold clampQ
  rw [abs_le]
  constructor
  · exact le_max_left _ _
  · exact max_le (by linarith) (min_le_left _ _)

theorem clampQ_move_le (c d lo hi : ℚ) (h1 : lo ≤ c) (h2 : c ≤ hi) :
    |clampQ (c + d) lo hi - c| ≤ |d| := by
  unfold clampQ
  rcases le_total (c + d) hi with hch | hch
  · rw [min_eq_right hch]
    rcases le_total lo (c + d) with hcl | hcl
    · rw [max_eq_right hcl]
      simp [abs_le, le_abs_self, neg_abs_le]
    · rw [max_eq_left hcl]
      have hd : d ≤ 0 := by linarith
      rw [abs_of_nonpos (by linarith), abs_of_nonpos hd]
      linarith
  · rw [min_eq_left hch, max_eq_right (h1.trans h2)]
    have hd : 0 ≤ d := by linarith
    rw [abs_of_nonneg (by linarith), abs_of_nonneg hd]
    linarith

theorem soc_bounds_le (asset : Asset) : (soc_bounds asset).1 ≤ (soc_bounds asset).2 := by
  unfold soc_bounds
  dsimp only
  split
  next h => simp only [h]
  next h => exact le_max_right asset.capacity_mwhr 0

/-! ## Claims about the physics tick (C2, C4) -/

/-- C4: Bounds invariant of the physics tick.  For every asset whose
configuration satisfies `min_mw ≤ 0 ≤ max_mw`, after any `tick_asset` call
the resulting state satisfies `min_mw ≤ current_mw ≤ max_mw` and
`min_soc ≤ soc_mwhr ≤ max_soc`, where the SOC band is the one `soc_bounds`
derives from the capacity and percentage band.  (`0 ≤ dt` and a nonnegative
ramp rate keep the embedded clamp in the domain where Rust's `f64::clamp`
does not panic.) -/
theorem tick_bounds_invariant (asset : Asset) (state : BessState) (dt : ℚ) (now : ℕ)
    (hmin : asset.min_mw ≤ 0) (hmax : 0 ≤ asset.max_mw)
    (_hdt : 0 ≤ dt) (_hramp : 0 ≤ asset.ramp_rate_mw_per_min) :
    asset.min_mw ≤ (tick_asset asset state dt now).1.current_mw ∧
    (tick_asset asset state dt now).1.current_mw ≤ asset.max_mw ∧
    (soc_bounds asset).1 ≤ (tick_asset asset state dt now).1.soc_mwhr ∧
    (tick_asset asset state dt now).1.soc_mwhr ≤ (soc_bounds asset).2 := by
  have hmm : asset.min_mw ≤ asset.max_mw := hmin.trans hmax
  have hsb := soc_bounds_le asset
  have hcur := clampQ_mem
    (state.current_mw + clampQ (state.setpoint_mw - state.current_mw)
      (-(asset.ramp_rate_mw_per_min / 60 * dt)) (asset.ramp_rate_mw_per_min / 60 * dt))
    asset.min_mw asset.max_mw hmm
  unfold tick_asset
  dsimp only
  split_ifs <;>
    first
      | exact ⟨hmin, hmax, clampQ_mem _ _ _ hsb⟩
      | exact ⟨hcur.1, hcur.2, clampQ_mem _ _ _ hsb⟩

/-- A fixed test asset used by concrete evaluations: 100 MWh capacity,
±50 MW limits, full SOC band, unit efficiency, 30 MW/min ramp
(the asset of scenario S1/S2 in the specification). -/
def rampAsset : Asset :=
  { id := 1, site_id := 1, site_name := "site", name := "asset", location := "loc",
    capacity_mwhr := 100, max_mw := 50, min_mw := -50,
    min_soc_pct := 0, max_soc_pct := 100, efficiency := 1,
    ramp_rate_mw_per_min := 30 }

/-- A state sitting essentially at the minimum SOC while still discharging:
the boundary clamp of `tick_asset` fires on it. -/
def nearEmptyState : BessState :=
  { soc_mwhr := 1 / 2000000, current_mw := 10, setpoint_mw := 10 }

/-- An idle mid-band state. -/
def idleState : BessState :=
  { soc_mwhr := 50, current_mw := 0, setpoint_mw := 0 }

/-- C2 counterexample: the ramp law `|current_mw' − current_mw| ≤
ramp_rate_mw_per_min · dt / 60` does **not** hold for every starting state:
when the post-integration SOC hits the minimum bound while the asset is still
discharging, the boundary clamp zeroes `current_mw` in one tick, a jump of
10 MW against a ramp allowance of 0.5 MW for `dt = 1 s`. -/
theorem tick_ramp_counterexample :
    ¬ (|(tick_asset rampAsset nearEmptyState 1 0).1.current_mw -
          nearEmptyState.current_mw| ≤
        rampAsset.ramp_rate_mw_per_min * 1 / 60) := by
  norm_num [tick_asset, rampAsset, nearEmptyState, soc_bounds, clampQ, epsQ]

/-- C2 (amended): ramp law of the physics tick.  For every asset and every
starting state whose `current_mw` lies inside the asset's MW limits, one
`tick_asset` call either respects the ramp bound
`|current_mw' − current_mw| ≤ ramp_rate_mw_per_min · dt / 60`, or the SOC
boundary clamp fired, in which case `current_mw' = setpoint_mw' = 0`. -/
theorem tick_ramp_bound_or_boundary_stop (asset : Asset) (state : BessState)
    (dt : ℚ) (now : ℕ)
    (hcl : asset.min_mw ≤ state.current_mw) (hcu : state.current_mw ≤ asset.max_mw)
    (hdt : 0 ≤ dt) (hramp : 0 ≤ asset.ramp_rate_mw_per_min) :
    |(tick_asset asset state dt now).1.current_mw - state.current_mw| ≤
        asset.ramp_rate_mw_per_min * dt / 60 ∨
      ((tick_asset asset state dt now).1.current_mw = 0 ∧
       (tick_asset asset state dt now).1.setpoint_mw = 0) := by
  have hmd : (0:ℚ) ≤ asset.ramp_rate_mw_per_min / 60 * dt :=
    mul_nonneg (div_nonneg hramp (by norm_num)) hdt
  have happ := clampQ_abs_le (state.setpoint_mw - state.current_mw)
    (asset.ramp_rate_mw_per_min / 60 * dt) hmd
  have hmove := clampQ_move_le state.current_mw
    (clampQ (state.setpoint_mw - state.current_mw)
      (-(asset.ramp_rate_mw_per_min / 60 * dt)) (asset.ramp_rate_mw_per_min / 60 * dt))
    asset.min_mw asset.max_mw hcl hcu
  have heq : asset.ramp_rate_mw_per_min / 60 * dt =
      asset.ramp_rate_mw_per_min * dt / 60 := by ring
  unfold tick_asset
  dsimp only
  split_ifs <;>
    first
      | exact Or.inr ⟨rfl, rfl⟩
      | exact Or.inl (heq ▸ hmove.trans happ)

/-- Witness for C2 (amended) at a concrete input. -/
theorem tick_ramp_bound_or_boundary_stop_witness :
    |(tick_asset rampAsset idleState 1 0).1.current_mw - idleState.current_mw| ≤
        rampAsset.ramp_rate_mw_per_min * 1 / 60 ∨
      ((tick_asset rampAsset idleState 1 0).1.current_mw = 0 ∧
       (tick_asset rampAsset idleState 1 0).1.setpoint_mw = 0) :=
  tick_ramp_bound_or_boundary_stop rampAsset idleState 1 0
    (by norm_num [rampAsset, idleState]) (by norm_num [rampAsset, idleState])
    (by norm_num) (by norm_num [rampAsset])

/-- Witness for C4 at a concrete input. -/
theorem tick_bounds_invariant_witness :
    rampAsset.min_mw ≤ (tick_asset rampAsset nearEmptyState 4 0).1.current_mw ∧
    (tick_asset rampAsset nearEmptyState 4 0).1.current_mw ≤ rampAsset.max_mw ∧
    (soc_bounds rampAsset).1 ≤ (tick_asset rampAsset nearEmptyState 4 0).1.soc_mwhr ∧
    (tick_asset rampAsset nearEmptyState 4 0).1.soc_mwhr ≤ (soc_bounds rampAsset).2 :=
  tick_bounds_invariant rampAsset nearEmptyState 4 0
    (by norm_num [rampAsset]) (by norm_num [rampAsset])
    (by norm_num) (by norm_num [rampAsset])

/-! ## Simulator dispatch gate (`Simulator::set_dispatch`) -/

/-- The error kinds `Simulator::set_dispatch` can produce, in the order the
Rust function raises them: `asset not found for dispatch`,
`dispatch rejected: at min SOC`, `dispatch rejected: at max SOC`,
`mw out of bounds for asset`. -/
inductive SimError where
  | notFound
  | atMinSoc
  | atMaxSoc
  | outOfBounds
deriving Repr, DecidableEq

/-- `sim_core::DispatchRequest`. -/
structure DispatchRequest where
  asset_id : ℕ
  mw : ℚ
  duration_s : Option ℕ
  site_id : Option ℕ
  clamped : Bool
deriving Repr, DecidableEq

/-- `sim_core::Dispatch`. -/
structure Dispatch where
  id : ℕ
  asset_id : ℕ
  mw : ℚ
  duration_s : Option ℕ
  status : String
  reason : Option String
  submitted_at : ℕ
  clamped : Bool
deriving Repr, DecidableEq

/-- `der_headend`'s `Simulator`: the three `HashMap`s keyed by asset UUID. -/
structure Simulator where
  assets : ℕ → Option Asset
  state : ℕ → Option BessState
  dispatches : ℕ → Option Dispatch

/-- `Simulator::set_dispatch` — validate an incoming dispatch request and, if
accepted, write the setpoint into the per-asset state and record the
dispatch.  `newId` stands for `Uuid::new_v4()` and `now` for `Utc::now()`.
The Rust method mutates `&mut self`; here the (possibly unchanged) simulator
is returned alongside the result. -/
def set_dispatch (sim : Simulator) (req : DispatchRequest) (newId now : ℕ) :
    Simulator × Except SimError Dispatch :=
  match sim.assets req.asset_id with
  | none => (sim, .error .notFound)
  | some asset =>
    let socGate : Option SimError :=
      match sim.state req.asset_id with
      | some st =>
        let b := soc_bounds asset
        if req.mw > 0 ∧ st.soc_mwhr ≤ b.1 + epsQ then some SimError.atMinSoc
        else if req.mw < 0 ∧ st.soc_mwhr ≥ b.2 - epsQ then some SimError.atMaxSoc
        else none
      | none => none
    match socGate with
    | some e => (sim, .error e)
    | none =>
      if req.mw > asset.max_mw ∨ req.mw < asset.min_mw then (sim, .error .outOfBounds)
      else
        let state' := fun k =>
          if k = req.asset_id then (sim.state k).map fun st => { st with setpoint_mw := req.mw }
          else sim.state k
        let d : Dispatch :=
          { id := newId, asset_id := req.asset_id, mw := req.mw,
            duration_s := req.duration_s, status := "accepted", reason := none,
            submitted_at := now, clamped := req.clamped }
        ({ sim with
            state := state'
            dispatches := fun k => if k = req.asset_id then some d else sim.dispatches k },
         .ok d)

/-- C3: SOC dispatch gate of `set_dispatch`.  With the asset and its state
present in the simulator: a request with `mw > 0` while
`soc ≤ min_soc + ε` fails with `AtMinSoc`; a request with `mw < 0` while
`soc ≥ max_soc − ε` fails with `AtMaxSoc`; consequently every accepted
dispatch with `mw > 0` has `soc_mwhr > min_soc + ε` at decision time, and
symmetrically every accepted dispatch with `mw < 0` has
`soc_mwhr < max_soc − ε`. -/
theorem set_dispatch_soc_gate (sim : Simulator) (req : DispatchRequest)
    (newId now : ℕ) (asset : Asset) (st : BessState)
    (ha : sim.assets req.asset_id = some asset)
    (hs : sim.state req.asset_id = some st) :
    (req.mw > 0 → st.soc_mwhr ≤ (soc_bounds asset).1 + epsQ →
      (set_dispatch sim req newId now).2 = .error .atMinSoc) ∧
    (req.mw < 0 → st.soc_mwhr ≥ (soc_bounds asset).2 - epsQ →
      (set_dispatch sim req newId now).2 = .error .atMaxSoc) ∧
    (∀ d, (set_dispatch sim req newId now).2 = .ok d → req.mw > 0 →
      st.soc_mwhr > (soc_bounds asset).1 + epsQ) ∧
    (∀ d, (set_dispatch sim req newId now).2 = .ok d → req.mw < 0 →
      st.soc_mwhr < (soc_bounds asset).2 - epsQ) := by
  refine ⟨?_, ?_, ?_, ?_⟩
  · intro h1 h2
    simp only [set_dispatch, ha, hs]
    rw [if_pos ⟨h1, h2⟩]
  · intro h1 h2
    simp only [set_dispatch, ha, hs]
    rw [if_neg (by rintro ⟨hp, -⟩; linarith), if_pos ⟨h1, h2⟩]
  · intro d hok h1
    by_contra hc
    push_neg at hc
    simp only [set_dispatch, ha, hs] at hok
    rw [if_pos ⟨h1, hc⟩] at hok
    cases hok
  · intro d hok h1
    by_contra hc
    push_neg at hc
    simp only [set_dispatch, ha, hs] at hok
    rw [if_neg (by rintro ⟨hp, -⟩; linarith), if_pos ⟨h1, hc⟩] at hok
    cases hok

/-- A one-asset simulator whose single asset sits essentially at minimum
SOC. -/
def simAtMinSoc : Simulator :=
  { assets := fun k => if k = 1 then some rampAsset else none,
    state := fun k => if k = 1 then some nearEmptyState else none,
    dispatches := fun _ => none }

/-- A discharge request for 5 MW against asset 1. -/
def dischargeReq : DispatchRequest :=
  { asset_id := 1, mw := 5, duration_s := none, site_id := none, clamped := false }

/-- Witness for C3 at a concrete input: the 5 MW discharge against the
almost-empty asset is rejected with `AtMinSoc`. -/
theorem set_dispatch_soc_gate_witness :
    (set_dispatch simAtMinSoc dischargeReq 0 0).2 = .error .atMinSoc :=
  (set_dispatch_soc_gate simAtMinSoc dischargeReq 0 0 rampAsset nearEmptyState
      rfl rfl).1
    (by norm_num [dischargeReq])
    (by norm_num [nearEmptyState, soc_bounds, rampAsset, clampQ, epsQ])

/-- Every `set_dispatch` call either leaves the simulator unchanged or
returns an accepted dispatch (the Rust method bails before its first
mutation). -/
theorem set_dispatch_unchanged_or_ok (sim : Simulator) (req : DispatchRequest)
    (newId now : ℕ) :
    (set_dispatch sim req newId now).1 = sim ∨
      ∃ d, (set_dispatch sim req newId now).2 = Except.ok d := by
  unfold set_dispatch
  split
  · exact Or.inl rfl
  · dsimp only
    split
    · exact Or.inl rfl
    · split
      · exact Or.inl rfl
      · exact Or.inr
          ⟨{ id := newId, asset_id := req.asset_id, mw := req.mw,
             duration_s := req.duration_s, status := "accepted", reason := none,
             submitted_at := now, clamped := req.clamped }, rfl⟩

/-- C10: dispatch rejection is atomic.  Whenever `set_dispatch` returns an
error — asset not found, at min/max SOC, or mw outside limits — the
simulator value is unchanged: no setpoint is written to any asset state and
the last-dispatch map is not modified. -/
theorem set_dispatch_error_atomic (sim : Simulator) (req : DispatchRequest)
    (newId now : ℕ) (e : SimError)
    (h : (set_dispatch sim req newId now).2 = Except.error e) :
    (set_dispatch sim req newId now).1 = sim := by
  rcases set_dispatch_unchanged_or_ok sim req newId now with h1 | ⟨d, hd⟩
  · exact h1
  · rw [hd] at h
    cases h

/-- Witness for C10 at a concrete input (the rejected `AtMinSoc` dispatch of
the C3 witness leaves the simulator untouched). -/
theorem set_dispatch_error_atomic_witness :
    (set_dispatch simAtMinSoc dischargeReq 0 0).1 = simAtMinSoc :=
  set_dispatch_error_atomic simAtMinSoc dischargeReq 0 0 .atMinSoc
    set_dispatch_soc_gate_witness

/-! ## NaN behaviour of the dispatch path (C5)

The rational model above cannot express IEEE NaN, so the NaN claim is
settled against a refinement of `set_dispatch` in which the requested
megawatt value — the only value the claim lets be NaN — is of a type with a
NaN inhabitant and IEEE comparison semantics: every ordered comparison
involving NaN is false, exactly as Rust's `>` and `<` on `f64`. -/

/-- An `f64` that is either NaN or a finite rational. -/
inductive F64 where
  | nan
  | fin (val : ℚ)
deriving Repr, DecidableEq

/-- Rust `>` on `f64`: false whenever either side is NaN. -/
def fgt : F64 → F64 → Bool
  | .fin a, .fin b => a > b
  | _, _ => false

/-- Rust `<` on `f64`: false whenever either side is NaN. -/
def flt : F64 → F64 → Bool
  | .fin a, .fin b => a < b
  | _, _ => false

/-- `sim_core::DispatchRequest` with a possibly-NaN `mw`. -/
structure DispatchRequestF where
  asset_id : ℕ
  mw : F64
  duration_s : Option ℕ
  site_id : Option ℕ
  clamped : Bool
deriving Repr, DecidableEq

/-- `sim_core::Dispatch` with a possibly-NaN `mw`. -/
structure DispatchF where
  id : ℕ
  asset_id : ℕ
  mw : F64
  duration_s : Option ℕ
  status : String
  reason : Option String
  submitted_at : ℕ
  clamped : Bool
deriving Repr, DecidableEq

/-- `sim_core::BessState` whose setpoint may have received a NaN write. -/
structure BessStateF where
  soc_mwhr : ℚ
  current_mw : ℚ
  setpoint_mw : F64
deriving Repr, DecidableEq

/-- The simulator of the NaN-aware model. -/
structure SimulatorF where
  assets : ℕ → Option Asset
  state : ℕ → Option BessStateF
  dispatches : ℕ → Option DispatchF

/-- `Simulator::set_dispatch`, NaN-aware refinement: line for line the same
validation chain as `set_dispatch`, with the `mw` comparisons performed by
the IEEE comparison operators. -/
def set_dispatch_f (sim : SimulatorF) (req : DispatchRequestF) (newId now : ℕ) :
    SimulatorF × Except SimError DispatchF :=
  match sim.assets req.asset_id with
  | none => (sim, .error .notFound)
  | some asset =>
    let socGate : Option SimError :=
      match sim.state req.asset_id with
      | some st =>
        let b := soc_bounds asset
        if fgt req.mw (.fin 0) ∧ st.soc_mwhr ≤ b.1 + epsQ then some SimError.atMinSoc
        else if flt req.mw (.fin 0) ∧ st.soc_mwhr ≥ b.2 - epsQ then some SimError.atMaxSoc
        else none
      | none => none
    match socGate with
    | some e => (sim, .error e)
    | none =>
      if fgt req.mw (.fin asset.max_mw) ∨ flt req.mw (.fin asset.min_mw) then
        (sim, .error .outOfBounds)
      else
        let state' := fun k =>
          if k = req.asset_id then (sim.state k).map fun st => { st with setpoint_mw := req.mw }
          else sim.state k
        let d : DispatchF :=
          { id := newId, asset_id := req.asset_id, mw := req.mw,
            duration_s := req.duration_s, status := "accepted", reason := none,
            submitted_at := now, clamped := req.clamped }
        ({ sim with
            state := state'
            dispatches := fun k => if k = req.asset_id then some d else sim.dispatches k },
         .ok d)

/-- A one-asset NaN-aware simulator with a healthy mid-band state. -/
def simF : SimulatorF :=
  { assets := fun k => if k = 1 then some rampAsset else none,
    state := fun k =>
      if k = 1 then some { soc_mwhr := 50, current_mw := 0, setpoint_mw := .fin 0 }
      else none,
    dispatches := fun _ => none }

/-- A dispatch request whose `mw` is NaN. -/
def nanReq : DispatchRequestF :=
  { asset_id := 1, mw := .nan, duration_s := none, site_id := none, clamped := false }

/-- C5 counterexample: a dispatch whose `mw` is NaN is **not** rejected by
the dispatch path in the repository — `set_dispatch` has no NaN check, NaN
passes both the SOC gate and the limit gate (every comparison involving NaN
is false), the dispatch is accepted and the NaN setpoint is written into the
asset state. -/
theorem set_dispatch_nan_counterexample :
    (set_dispatch_f simF nanReq 7 0).2 =
      Except.ok { id := 7, asset_id := 1, mw := .nan, duration_s := none,
                  status := "accepted", reason := none, submitted_at := 0,
                  clamped := false } ∧
    (set_dispatch_f simF nanReq 7 0).1.state 1 =
      some { soc_mwhr := 50, current_mw := 0, setpoint_mw := F64.nan } := by
  constructor <;>
    simp [set_dispatch_f, simF, nanReq, fgt, flt]

/-- C5 (amended): for every simulator in which the requested asset and its
state exist, a dispatch request with NaN `mw` is accepted by
`set_dispatch` — no error is returned, the recorded dispatch carries the NaN
`mw`, and the NaN setpoint is written into the asset state.  (NaN rejection
happens only at JSON deserialisation, outside the repository's code: JSON
has no NaN literal.) -/
theorem set_dispatch_accepts_nan (sim : SimulatorF) (aid : ℕ)
    (dur : Option ℕ) (sid : Option ℕ) (cl : Bool) (newId now : ℕ)
    (asset : Asset) (st : BessStateF)
    (ha : sim.assets aid = some asset) (hs : sim.state aid = some st) :
    (set_dispatch_f sim
        { asset_id := aid, mw := .nan, duration_s := dur, site_id := sid, clamped := cl }
        newId now).2 =
      Except.ok { id := newId, asset_id := aid, mw := .nan, duration_s := dur,
                  status := "accepted", reason := none, submitted_at := now,
                  clamped := cl } ∧
    (set_dispatch_f sim
        { asset_id := aid, mw := .nan, duration_s := dur, site_id := sid, clamped := cl }
        newId now).1.state aid = some { st with setpoint_mw := F64.nan } := by
  constructor <;>
    simp [set_dispatch_f, ha, hs, fgt, flt]

/-- Witness for C5 (amended) at a concrete input. -/
theorem set_dispatch_accepts_nan_witness :
    (set_dispatch_f simF nanReq 7 0).2 =
      Except.ok { id := 7, asset_id := 1, mw := .nan, duration_s := none,
                  status := "accepted", reason := none, submitted_at := 0,
                  clamped := false } ∧
    (set_dispatch_f simF nanReq 7 0).1.state 1 =
      some { soc_mwhr := 50, current_mw := 0, setpoint_mw := F64.nan } :=
  set_dispatch_accepts_nan simF 1 none none false 7 0 rampAsset
    { soc_mwhr := 50, current_mw := 0, setpoint_mw := .fin 0 } rfl rfl

/-! ## Pending-setpoint drain on Register (C6) -/

/-- The outbound `Setpoint` wire message (`proto::Setpoint`). -/
structure Setpoint where
  asset_id : ℕ
  mw : ℚ
  duration_s : Option ℕ
  site_id : Option ℕ
  group_id : Option ℕ
  dispatch_id : Option ℕ
deriving Repr, DecidableEq

/-- The pending-drain step of the `Register` handler in `GrpcApi::stream`:
`if let Some(pending) = pending_setpoints.remove(&uuid) { let _ = tx.send(Setpoint{..}) }`.
The mailbox is abstracted as a predicate saying whether the bounded channel
accepts the message.  The returned option records which message was
enqueued and whether the mailbox accepted it; exactly as in the Rust code
(`let _ = tx.send(..)`), this outcome has no influence on the registry. -/
def drain_pending_on_register (pending : ℕ → Option Dispatch) (uuid site_uuid : ℕ)
    (mailboxAccepts : Setpoint → Bool) :
    (ℕ → Option Dispatch) × Option (Setpoint × Bool) :=
  match pending uuid with
  | some p =>
    let msg : Setpoint :=
      { asset_id := p.asset_id, mw := p.mw, duration_s := p.duration_s,
        site_id := some site_uuid, group_id := none, dispatch_id := some p.id }
    (fun k => if k = uuid then none else pending k, some (msg, mailboxAccepts msg))
  | none => (pending, none)

/-- A pending 5 MW dispatch parked for asset 1. -/
def pendingOne : ℕ → Option Dispatch := fun k =>
  if k = 1 then
    some { id := 9, asset_id := 1, mw := 5, duration_s := none, status := "accepted",
           reason := none, submitted_at := 0, clamped := false }
  else none

/-- C6 counterexample: with a mailbox that does **not** accept the message,
the pending entry is removed anyway — refuting the claim that the entry is
removed iff the mailbox accepts the message (and in particular that it
remains when the mailbox rejects it). -/
theorem drain_pending_counterexample :
    (pendingOne 1).isSome = true ∧
    (drain_pending_on_register pendingOne 1 1 (fun _ => false)).1 1 = none := by
  constructor
  · rfl
  · rfl

/-- C6 (amended): registering an asset with a pending dispatch removes the
pending entry unconditionally — the registry removes the entry before the
send and discards the send result, so the entry is gone whether or not the
mailbox accepts the message (and keys other than the registered one are
untouched). -/
theorem drain_pending_unconditional_removal (pending : ℕ → Option Dispatch)
    (uuid site_uuid : ℕ) (mailboxAccepts : Setpoint → Bool) :
    (drain_pending_on_register pending uuid site_uuid mailboxAccepts).1 uuid = none := by
  unfold drain_pending_on_register
  cases h : pending uuid with
  | none => simp [h]
  | some p => simp

/-! ## SOC zone event detector (C9) -/

/-- `SocState` — the three SOC zones tracked per asset. -/
inductive SocState where
  | belowMin
  | inRange
  | aboveMax
deriving Repr, DecidableEq

/-- `BessEvent` — the event record emitted on a zone change. -/
structure BessEvent where
  id : ℕ
  asset_id : ℕ
  site_id : ℕ
  timestamp : ℕ
  event_type : String
  severity : String
  message : String
deriving Repr, DecidableEq

/-- The SOC zone of an observed telemetry value, as computed inline by
`maybe_emit_soc_event`: `BelowMin` if `soc ≤ min_soc + ε`, `AboveMax` if
`soc ≥ max_soc − ε`, else `InRange`. -/
def soc_zone (asset : Asset) (soc : ℚ) : SocState :=
  if soc ≤ (soc_bounds asset).1 + epsQ then .belowMin
  else if soc ≥ (soc_bounds asset).2 - epsQ then .aboveMax
  else .inRange

/-- `maybe_emit_soc_event` — per-asset SOC zone edge detector.  Looks the
asset up in the simulator's catalogue (unknown asset: no state change, no
event), records the newly observed zone (`states.insert` returns the
previous zone), and emits a warning event only when the zone changed and the
new zone is a boundary zone.  `newId` stands for `Uuid::new_v4()`; the
journal append is outside the model. -/
def maybe_emit_soc_event (assets : ℕ → Option Asset) (soc_state : ℕ → Option SocState)
    (snap : Telemetry) (newId : ℕ) :
    (ℕ → Option SocState) × Option BessEvent :=
  match assets snap.asset_id with
  | none => (soc_state, none)
  | some asset =>
    let next := soc_zone asset snap.soc_mwhr
    let prev := soc_state snap.asset_id
    let states' := fun k => if k = snap.asset_id then some next else soc_state k
    if prev = some next then (states', none)
    else
      match next with
      | .inRange => (states', none)
      | .belowMin =>
        (states', some { id := newId, asset_id := snap.asset_id, site_id := asset.site_id,
                         timestamp := snap.timestamp, event_type := "MIN_SOC_REACHED",
                         severity := "warning", message := "Min SOC reached" })
      | .aboveMax =>
        (states', some { id := newId, asset_id := snap.asset_id, site_id := asset.site_id,
                         timestamp := snap.timestamp, event_type := "MAX_SOC_REACHED",
                         severity := "warning", message := "Max SOC reached" })

/-- C9: edge-only SOC events.  For an asset known to the catalogue: if the
observed zone equals the previously recorded zone, no event is emitted; any
emitted event implies the zone changed; re-entering `InRange` emits no
event; and the newly recorded zone is the observed zone. -/
theorem soc_event_edge_only (assets : ℕ → Option Asset)
    (soc_state : ℕ → Option SocState) (snap : Telemetry) (newId : ℕ) (asset : Asset)
    (ha : assets snap.asset_id = some asset) :
    (soc_state snap.asset_id = some (soc_zone asset snap.soc_mwhr) →
      (maybe_emit_soc_event assets soc_state snap newId).2 = none) ∧
    (∀ e, (maybe_emit_soc_event assets soc_state snap newId).2 = some e →
      soc_state snap.asset_id ≠ some (soc_zone asset snap.soc_mwhr)) ∧
    (soc_zone asset snap.soc_mwhr = .inRange →
      (maybe_emit_soc_event assets soc_state snap newId).2 = none) ∧
    (maybe_emit_soc_event assets soc_state snap newId).1 snap.asset_id =
      some (soc_zone asset snap.soc_mwhr) := by
  refine ⟨?_, ?_, ?_, ?_⟩
  · intro h
    simp [maybe_emit_soc_event, ha, h]
  · intro e he hprev
    simp [maybe_emit_soc_event, ha, hprev] at he
  · intro hz
    simp only [maybe_emit_soc_event, ha, hz]
    split
    · rfl
    · rfl
  · simp only [maybe_emit_soc_event, ha]
    split
    · simp
    · split <;> simp

/-- The catalogue holding only asset 1 (`rampAsset`). -/
def assetsOne : ℕ → Option Asset := fun k => if k = 1 then some rampAsset else none

/-- A recorded-zones map with asset 1 in `InRange`. -/
def socStateMid : ℕ → Option SocState := fun k => if k = 1 then some .inRange else none

/-- A mid-band telemetry snapshot for asset 1. -/
def midSnap : Telemetry :=
  { asset_id := 1, site_id := 1, site_name := "site", timestamp := 0,
    soc_mwhr := 50, soc_pct := 50, capacity_mwhr := 100, current_mw := 0,
    setpoint_mw := 0, max_mw := 50, min_mw := -50, status := "idle" }

/-- Witness for C9 at a concrete input: an `InRange` observation of an asset
already recorded `InRange` emits no event. -/
theorem soc_event_edge_only_witness :
    (maybe_emit_soc_event assetsOne socStateMid midSnap 0).2 = none :=
  (soc_event_edge_only assetsOne socStateMid midSnap 0 rampAsset rfl).1
    (by norm_num [socStateMid, midSnap, soc_zone, soc_bounds, rampAsset, clampQ, epsQ])

/-! ## Site allocator (`compute_site_allocations`, C1 and C7)

The Rust function precomputes a `headrooms` vector from the current
`clamped` values and then walks `clamped.iter_mut().zip(&headrooms).zip(assets)`;
since `headrooms[i]` is a function of `clamped[i]` and `assets[i]` alone,
that triple walk is embedded as a `zipWith` over `clamped` and `assets`
recomputing each element's headroom in place.  The final assembly of
`AllocationView`s uses `raw.get(i)` / `clamped.get(i)` with a `0.0`
default; all lists involved have the length of `assets`, so it is embedded
as a simultaneous three-list walk. -/

/-- The allocator's residual tolerance `1e-6`. -/
def tolerance : ℚ := 1 / 1000000

/-- `f64::EPSILON` = 2⁻⁵², the zero-capacity and zero-headroom threshold. -/
def EPS52 : ℚ := 1 / 2 ^ 52

/-- `AllocationView` — one row of the allocator's result. -/
structure AllocationView where
  asset_id : ℕ
  mw_raw : ℚ
  mw : ℚ
  clamped : Bool
deriving Repr, DecidableEq

/-- One entry of the `headrooms` vector: available room in the direction of
the residual. -/
def headroom_of (direction_positive : Bool) (v : ℚ) (a : Asset) : ℚ :=
  if direction_positive then a.max_mw - v else a.min_mw - v

/-- `total_headroom`: sum of `|headroom|` over the entries pointing in the
direction of the residual. -/
def total_headroom (direction_positive : Bool) (clamped : List ℚ) (assets : List Asset) : ℚ :=
  (((List.zipWith (fun v a => headroom_of direction_positive v a) clamped assets).filter
      fun h => if direction_positive then decide (0 < h) else decide (h < 0)).map
    fun h => |h|).sum

/-- The body of one repair iteration applied to one asset: skip entries
whose headroom points the wrong way, otherwise move by the residual share
proportional to `|headroom| / total` and re-clamp. -/
def pass_update (direction_positive : Bool) (residual total v h : ℚ) (a : Asset) : ℚ :=
  if (direction_positive = true ∧ h ≤ 0) ∨ (direction_positive = false ∧ 0 ≤ h) then v
  else
    let share := |h| / total
    let delta := residual * share
    let candidate := v + delta
    clampQ candidate a.min_mw a.max_mw

/-- One repair pass over the allocation vector. -/
def repair_pass (assets : List Asset) (clamped : List ℚ) (residual : ℚ)
    (direction_positive : Bool) (total : ℚ) : List ℚ :=
  List.zipWith
    (fun v a => pass_update direction_positive residual total v
      (headroom_of direction_positive v a) a)
    clamped assets

/-- The `while residual.abs() > tolerance && attempts < 3` repair loop,
with the `attempts` counter expressed as fuel (3 at the top-level call).
Stops when the residual is inside tolerance, the fuel is exhausted, or the
total headroom in the residual's direction is below `f64::EPSILON`. -/
def repair_loop (assets : List Asset) (mw_total : ℚ) : ℕ → List ℚ → List ℚ
  | 0, clamped => clamped
  | fuel + 1, clamped =>
    let residual := mw_total - clamped.sum
    if |residual| ≤ tolerance then clamped
    else
      let dp := decide (residual > 0)
      let total := total_headroom dp clamped assets
      if total ≤ EPS52 then clamped
      else repair_loop assets mw_total fuel (repair_pass assets clamped residual dp total)

/-- The capacity-weighted raw split `mw_total * capacity_i / cap_sum`. -/
def site_raw (assets : List Asset) (mw_total : ℚ) : List ℚ :=
  let cap_sum := (assets.map fun a => a.capacity_mwhr).sum
  assets.map fun a => mw_total * a.capacity_mwhr / cap_sum

/-- The initial per-asset clamp of the raw split into `[min_mw, max_mw]`. -/
def site_clamped0 (assets : List Asset) (mw_total : ℚ) : List ℚ :=
  List.zipWith (fun mw a => clampQ mw a.min_mw a.max_mw) (site_raw assets mw_total) assets

/-- Assemble the result rows; an allocation is marked `clamped` iff the
final value differs from the raw split by more than the tolerance. -/
def build_allocations : List Asset → List ℚ → List ℚ → List AllocationView
  | a :: al, r :: rl, m :: ml =>
    { asset_id := a.id, mw_raw := r, mw := m,
      clamped := decide (|r - m| > tolerance) } :: build_allocations al rl ml
  | _, _, _ => []

/-- `compute_site_allocations` — capacity-weighted site dispatch split with
initial clamp and at-most-3-pass residual repair. -/
def compute_site_allocations (assets : List Asset) (mw_total : ℚ) : List AllocationView :=
  if assets.isEmpty then []
  else
    let cap_sum := (assets.map fun a => a.capacity_mwhr).sum
    if cap_sum ≤ EPS52 then
      assets.map fun a => { asset_id := a.id, mw_raw := 0, mw := 0, clamped := false }
    else
      build_allocations assets (site_raw assets mw_total)
        (repair_loop assets mw_total 3 (site_clamped0 assets mw_total))

/-- A value lying within an asset's MW limits. -/
def in_bounds (v : ℚ) (a : Asset) : Prop := a.min_mw ≤ v ∧ v ≤ a.max_mw

theorem clampQ_eq_self (x lo hi : ℚ) (h1 : lo ≤ x) (h2 : x ≤ hi) : clampQ x lo hi = x := by
  unfold clampQ
  rw [min_eq_right h2, max_eq_right h1]

theorem repair_pass_bounds (residual total : ℚ) (dp : Bool)
    {clamped : List ℚ} {assets : List Asset}
    (h : List.Forall₂ in_bounds clamped assets) :
    List.Forall₂ in_bounds (repair_pass assets clamped residual dp total) assets := by
  induction h with
  | nil => exact List.Forall₂.nil
  | @cons v a vs al hva htl ih =>
    simp only [repair_pass, List.zipWith_cons_cons] at ih ⊢
    refine List.Forall₂.cons ?_ ih
    unfold pass_update
    split
    · exact hva
    · exact clampQ_mem _ _ _ (hva.1.trans hva.2)

theorem repair_loop_bounds (assets : List Asset) (mw_total : ℚ) (fuel : ℕ) :
    ∀ {clamped : List ℚ}, List.Forall₂ in_bounds clamped assets →
      List.Forall₂ in_bounds (repair_loop assets mw_total fuel clamped) assets := by
  induction fuel with
  | zero => intro clamped h; exact h
  | succ n ih =>
    intro clamped h
    unfold repair_loop
    dsimp only
    split
    · exact h
    · split
      · exact h
      · exact ih (repair_pass_bounds _ _ _ h)

theorem zip_clamp_bounds (f : Asset → ℚ) (al : List Asset)
    (hal : ∀ a ∈ al, a.min_mw ≤ a.max_mw) :
    List.Forall₂ in_bounds
      (List.zipWith (fun mw a => clampQ mw a.min_mw a.max_mw) (al.map f) al) al := by
  induction al with
  | nil => exact List.Forall₂.nil
  | cons a al ih =>
    simp only [List.map_cons, List.zipWith_cons_cons]
    exact List.Forall₂.cons (clampQ_mem _ _ _ (hal a (by simp)))
      (ih fun x hx => hal x (by simp [hx]))

theorem site_clamped0_bounds (assets : List Asset) (mw_total : ℚ)
    (hmm : ∀ a ∈ assets, a.min_mw ≤ a.max_mw) :
    List.Forall₂ in_bounds (site_clamped0 assets mw_total) assets := by
  unfold site_clamped0 site_raw
  dsimp only
  exact zip_clamp_bounds _ assets hmm

theorem build_allocations_forall2 :
    ∀ {al : List Asset} {rl ml : List ℚ}, rl.length = al.length →
      List.Forall₂ in_bounds ml al →
      List.Forall₂ (fun (v : AllocationView) a => a.min_mw ≤ v.mw ∧ v.mw ≤ a.max_mw)
        (build_allocations al rl ml) al := by
  intro al rl ml hlen h
  induction h generalizing rl with
  | nil =>
    cases rl
    · exact List.Forall₂.nil
    · exact List.Forall₂.nil
  | @cons m a ml' al' hma htl ih =>
    cases rl with
    | nil => simp at hlen
    | cons r rl' =>
      simp only [build_allocations]
      exact List.Forall₂.cons hma (ih (by simpa using hlen))

theorem build_allocations_map_mw :
    ∀ (al : List Asset) (rl ml : List ℚ), rl.length = al.length → ml.length = al.length →
      (build_allocations al rl ml).map (fun v => v.mw) = ml := by
  intro al
  induction al with
  | nil =>
    intro rl ml _ h2
    cases ml
    · simp [build_allocations]
    · simp at h2
  | cons a al ih =>
    intro rl ml h1 h2
    cases rl with
    | nil => simp at h1
    | cons r rl' =>
      cases ml with
      | nil => simp at h2
      | cons m ml' =>
        simp only [build_allocations, List.map_cons]
        rw [ih rl' ml' (by simpa using h1) (by simpa using h2)]

theorem zero_alloc_bounds (al : List Asset)
    (hb : ∀ a ∈ al, a.min_mw ≤ 0 ∧ 0 ≤ a.max_mw) :
    List.Forall₂ (fun (v : AllocationView) a => a.min_mw ≤ v.mw ∧ v.mw ≤ a.max_mw)
      (al.map fun a => { asset_id := a.id, mw_raw := 0, mw := 0, clamped := false })
      al := by
  induction al with
  | nil => exact List.Forall₂.nil
  | cons a al ih =>
    simp only [List.map_cons]
    exact List.Forall₂.cons (hb a (by simp)) (ih fun x hx => hb x (by simp [hx]))

/-- C7 (amended): allocator boundedness.  For every asset list whose assets
satisfy the catalogue invariant `min_mw ≤ 0 ≤ max_mw` and every `mw_total`,
each allocation returned by `compute_site_allocations` satisfies
`min_mw_i ≤ mw_i ≤ max_mw_i` (entry-by-entry against the input list, which
the result matches in length and order). -/
theorem allocator_boundedness (assets : List Asset) (mw_total : ℚ)
    (hb : ∀ a ∈ assets, a.min_mw ≤ 0 ∧ 0 ≤ a.max_mw) :
    List.Forall₂ (fun (v : AllocationView) a => a.min_mw ≤ v.mw ∧ v.mw ≤ a.max_mw)
      (compute_site_allocations assets mw_total) assets := by
  have hmm : ∀ a ∈ assets, a.min_mw ≤ a.max_mw :=
    fun a ha => ((hb a ha).1).trans (hb a ha).2
  unfold compute_site_allocations
  dsimp only
  split
  next hemp =>
    have : assets = [] := by simpa [List.isEmpty_iff] using hemp
    subst this
    exact List.Forall₂.nil
  next hemp =>
    split
    · exact zero_alloc_bounds assets hb
    · have hB := site_clamped0_bounds assets mw_total hmm
      have hloop := repair_loop_bounds assets mw_total 3 hB
      exact build_allocations_forall2 (by simp [site_raw]) hloop

/-- A single zero-capacity asset whose MW band excludes zero. -/
def zeroCapAssets : List Asset :=
  [{ id := 3, site_id := 1, site_name := "site", name := "z", location := "loc",
     capacity_mwhr := 0, max_mw := 2, min_mw := 1, min_soc_pct := 0,
     max_soc_pct := 100, efficiency := 1, ramp_rate_mw_per_min := 30 }]

/-- C7 counterexample: for an input list violating the catalogue invariant
`min_mw ≤ 0 ≤ max_mw` (here `min_mw = 1 > 0`) with zero total capacity, the
allocator's zero-capacity branch returns `mw = 0`, which lies outside
`[min_mw, max_mw] = [1, 2]` — so boundedness does not hold for *every*
input asset list. -/
theorem allocator_boundedness_counterexample :
    ¬ List.Forall₂ (fun (v : AllocationView) (a : Asset) => a.min_mw ≤ v.mw ∧ v.mw ≤ a.max_mw)
      (compute_site_allocations zeroCapAssets 5) zeroCapAssets := by
  have hres : compute_site_allocations zeroCapAssets 5 =
      [{ asset_id := 3, mw_raw := 0, mw := 0, clamped := false }] := by
    norm_num [compute_site_allocations, zeroCapAssets, EPS52]
  rw [hres]
  intro h
  have h1 := (List.forall₂_cons.mp h).1.1
  norm_num [zeroCapAssets] at h1

/-- The two-asset site of scenarios S3/S4:
`A(cap=100, min=-40, max=40)`, `B(cap=300, min=-20, max=20)`, sorted by id. -/
def cexAssets : List Asset :=
  [{ id := 1, site_id := 1, site_name := "site", name := "A", location := "loc",
     capacity_mwhr := 100, max_mw := 40, min_mw := -40, min_soc_pct := 0,
     max_soc_pct := 100, efficiency := 1, ramp_rate_mw_per_min := 30 },
   { id := 2, site_id := 1, site_name := "site", name := "B", location := "loc",
     capacity_mwhr := 300, max_mw := 20, min_mw := -20, min_soc_pct := 0,
     max_soc_pct := 100, efficiency := 1, ramp_rate_mw_per_min := 30 }]

/-- Witness for C7 (amended) at a concrete input. -/
theorem allocator_boundedness_witness :
    List.Forall₂ (fun (v : AllocationView) a => a.min_mw ≤ v.mw ∧ v.mw ≤ a.max_mw)
      (compute_site_allocations cexAssets 35) cexAssets :=
  allocator_boundedness cexAssets 35
    (by intro a ha; fin_cases ha <;> norm_num [cexAssets])

theorem total_headroom_nil (dp : Bool) (al : List Asset) :
    total_headroom dp [] al = 0 := by
  simp [total_headroom]

theorem total_headroom_cons_true (v : ℚ) (a : Asset) (vs : List ℚ) (al : List Asset) :
    total_headroom true (v :: vs) (a :: al) =
      (if 0 < headroom_of true v a then |headroom_of true v a| else 0) +
        total_headroom true vs al := by
  unfold total_headroom
  simp only [List.zipWith_cons_cons, List.filter_cons]
  by_cases h : 0 < headroom_of true v a <;> simp [h]

theorem total_headroom_cons_false (v : ℚ) (a : Asset) (vs : List ℚ) (al : List Asset) :
    total_headroom false (v :: vs) (a :: al) =
      (if headroom_of false v a < 0 then |headroom_of false v a| else 0) +
        total_headroom false vs al := by
  unfold total_headroom
  simp only [List.zipWith_cons_cons, List.filter_cons]
  by_cases h : headroom_of false v a < 0 <;> simp [h]

theorem repair_pass_sum_pos (r S : ℚ) (hr : 0 < r) (hrS : r ≤ S) (hS : 0 < S)
    {clamped : List ℚ} {assets : List Asset}
    (h : List.Forall₂ in_bounds clamped assets) :
    (repair_pass assets clamped r true S).sum =
      clamped.sum + r / S * total_headroom true clamped assets := by
  induction h with
  | nil => simp [repair_pass, total_headroom]
  | @cons v a vs al hva htl ih =>
    simp only [repair_pass, List.zipWith_cons_cons, List.sum_cons] at ih ⊢
    rw [total_headroom_cons_true]
    have hH : headroom_of true v a = a.max_mw - v := by simp [headroom_of]
    by_cases hpos : 0 < headroom_of true v a
    · rw [if_pos hpos]
      have habs : |headroom_of true v a| = a.max_mw - v := by
        rw [abs_of_pos hpos, hH]
      have hupd : pass_update true r S v (headroom_of true v a) a =
          v + r * (|headroom_of true v a| / S) := by
        unfold pass_update
        rw [if_neg (by
          rintro (⟨-, hle⟩ | ⟨hfalse, -⟩)
          · exact absurd hpos (not_lt.mpr hle)
          · cases hfalse)]
        dsimp only
        apply clampQ_eq_self
        · have : 0 ≤ r * (|headroom_of true v a| / S) := by positivity
          linarith [hva.1]
        · have h1 : r / S ≤ 1 := (div_le_one hS).mpr hrS
          have h2 : r * (|headroom_of true v a| / S) = (a.max_mw - v) * (r / S) := by
            rw [habs]; ring
          have h3 : (a.max_mw - v) * (r / S) ≤ (a.max_mw - v) * 1 :=
            mul_le_mul_of_nonneg_left h1 (by rw [hH] at hpos; linarith)
          linarith
      rw [hupd, ih, habs]
      ring
    · rw [if_neg hpos]
      have hle : headroom_of true v a ≤ 0 := not_lt.mp hpos
      have hupd : pass_update true r S v (headroom_of true v a) a = v := by
        unfold pass_update
        rw [if_pos (Or.inl ⟨rfl, hle⟩)]
      rw [hupd, ih]
      ring

theorem repair_pass_sum_neg (r S : ℚ) (hr : r < 0) (hrS : -r ≤ S) (hS : 0 < S)
    {clamped : List ℚ} {assets : List Asset}
    (h : List.Forall₂ in_bounds clamped assets) :
    (repair_pass assets clamped r false S).sum =
      clamped.sum + r / S * total_headroom false clamped assets := by
  induction h with
  | nil => simp [repair_pass, total_headroom]
  | @cons v a vs al hva htl ih =>
    simp only [repair_pass, List.zipWith_cons_cons, List.sum_cons] at ih ⊢
    rw [total_headroom_cons_false]
    have hH : headroom_of false v a = a.min_mw - v := by simp [headroom_of]
    by_cases hneg : headroom_of false v a < 0
    · rw [if_pos hneg]
      have habs : |headroom_of false v a| = v - a.min_mw := by
        rw [abs_of_neg hneg, hH]; ring
      have hupd : pass_update false r S v (headroom_of false v a) a =
          v + r * (|headroom_of false v a| / S) := by
        unfold pass_update
        rw [if_neg (by
          rintro (⟨hfalse, -⟩ | ⟨-, hge⟩)
          · cases hfalse
          · exact absurd hneg (not_lt.mpr hge))]
        dsimp only
        apply clampQ_eq_self
        · have e1 : v + r * (|headroom_of false v a| / S) - a.min_mw =
              (v - a.min_mw) * (1 + r / S) := by
            rw [habs]; ring
          have e2 : (0:ℚ) ≤ 1 + r / S := by
            have hd : (-r) / S ≤ 1 := (div_le_one hS).mpr hrS
            rw [neg_div] at hd
            linarith
          have e3 : 0 ≤ (v - a.min_mw) * (1 + r / S) :=
            mul_nonneg (sub_nonneg.mpr hva.1) e2
          linarith [e1 ▸ e3]
        · have : r * (|headroom_of false v a| / S) ≤ 0 :=
            mul_nonpos_of_nonpos_of_nonneg (le_of_lt hr) (by positivity)
          linarith [hva.2]
      rw [hupd, ih, habs]
      ring
    · rw [if_neg hneg]
      have hge : 0 ≤ headroom_of false v a := not_lt.mp hneg
      have hupd : pass_update false r S v (headroom_of false v a) a = v := by
        unfold pass_update
        rw [if_pos (Or.inr ⟨rfl, hge⟩)]
      rw [hupd, ih]
      ring

theorem repair_loop_stop (assets : List Asset) (mw_total : ℚ) (fuel : ℕ)
    (clamped : List ℚ) (h : |mw_total - clamped.sum| ≤ tolerance) :
    repair_loop assets mw_total (fuel + 1) clamped = clamped := by
  unfold repair_loop
  dsimp only
  rw [if_pos h]

theorem repair_loop_go (assets : List Asset) (mw_total : ℚ) (fuel : ℕ)
    (clamped : List ℚ)
    (h1 : ¬ |mw_total - clamped.sum| ≤ tolerance)
    (h2 : ¬ total_headroom (decide (mw_total - clamped.sum > 0)) clamped assets ≤ EPS52) :
    repair_loop assets mw_total (fuel + 1) clamped =
      repair_loop assets mw_total fuel
        (repair_pass assets clamped (mw_total - clamped.sum)
          (decide (mw_total - clamped.sum > 0))
          (total_headroom (decide (mw_total - clamped.sum > 0)) clamped assets)) := by
  unfold repair_loop
  dsimp only
  rw [if_neg h1, if_neg h2]
  cases fuel <;> rfl

theorem eps52_lt_tolerance : EPS52 < tolerance := by
  norm_num [EPS52, tolerance]

theorem repair_loop_conserves (assets : List Asset) (mw_total : ℚ)
    {clamped : List ℚ} (hB : List.Forall₂ in_bounds clamped assets)
    (hcase : |mw_total - clamped.sum| ≤ tolerance ∨
      (tolerance < mw_total - clamped.sum ∧
        mw_total - clamped.sum ≤ total_headroom true clamped assets) ∨
      (mw_total - clamped.sum < -tolerance ∧
        -(mw_total - clamped.sum) ≤ total_headroom false clamped assets)) :
    |mw_total - (repair_loop assets mw_total 3 clamped).sum| ≤ tolerance := by
  have htolpos : (0:ℚ) < tolerance := by norm_num [tolerance]
  rcases hcase with h0 | ⟨h1, h2⟩ | ⟨h1, h2⟩
  · rw [show (3:ℕ) = 2 + 1 from rfl, repair_loop_stop assets mw_total 2 clamped h0]
    exact h0
  · -- positive residual within total positive headroom: one pass repairs exactly
    have hrpos : 0 < mw_total - clamped.sum := lt_trans htolpos h1
    have hdp : decide (mw_total - clamped.sum > 0) = true := decide_eq_true hrpos
    have hS : 0 < total_headroom true clamped assets :=
      lt_of_lt_of_le hrpos h2
    have hnot1 : ¬ |mw_total - clamped.sum| ≤ tolerance := by
      rw [abs_of_pos hrpos]; linarith
    have hnot2 : ¬ total_headroom (decide (mw_total - clamped.sum > 0)) clamped assets ≤ EPS52 := by
      rw [hdp]
      have := eps52_lt_tolerance
      have : EPS52 < total_headroom true clamped assets := by
        calc EPS52 < tolerance := eps52_lt_tolerance
          _ < mw_total - clamped.sum := h1
          _ ≤ total_headroom true clamped assets := h2
      linarith
    rw [show (3:ℕ) = 2 + 1 from rfl, repair_loop_go assets mw_total 2 clamped hnot1 hnot2,
      hdp]
    have hsum := repair_pass_sum_pos (mw_total - clamped.sum)
      (total_headroom true clamped assets) hrpos h2 hS hB
    have hnew : (repair_pass assets clamped (mw_total - clamped.sum) true
        (total_headroom true clamped assets)).sum = mw_total := by
      rw [hsum, div_mul_cancel₀ _ (ne_of_gt hS)]
      ring
    rw [show (2:ℕ) = 1 + 1 from rfl,
      repair_loop_stop assets mw_total 1 _ (by rw [hnew]; simpa using le_of_lt htolpos),
      hnew]
    simpa using le_of_lt htolpos
  · -- negative residual within total negative headroom
    have hrneg : mw_total - clamped.sum < 0 := lt_trans h1 (by linarith)
    have hdp : decide (mw_total - clamped.sum > 0) = false := by
      simp [not_lt.mpr (le_of_lt hrneg)]
    have hS : 0 < total_headroom false clamped assets := by
      have : tolerance < -(mw_total - clamped.sum) := by linarith
      linarith
    have hnot1 : ¬ |mw_total - clamped.sum| ≤ tolerance := by
      rw [abs_of_neg hrneg]; linarith
    have hnot2 : ¬ total_headroom (decide (mw_total - clamped.sum > 0)) clamped assets ≤ EPS52 := by
      rw [hdp]
      have : EPS52 < total_headroom false clamped assets := by
        calc EPS52 < tolerance := eps52_lt_tolerance
          _ < -(mw_total - clamped.sum) := by linarith
          _ ≤ total_headroom false clamped assets := h2
      linarith
    rw [show (3:ℕ) = 2 + 1 from rfl, repair_loop_go assets mw_total 2 clamped hnot1 hnot2,
      hdp]
    have hsum := repair_pass_sum_neg (mw_total - clamped.sum)
      (total_headroom false clamped assets) hrneg h2 hS hB
    have hnew : (repair_pass assets clamped (mw_total - clamped.sum) false
        (total_headroom false clamped assets)).sum = mw_total := by
      rw [hsum, div_mul_cancel₀ _ (ne_of_gt hS)]
      ring
    rw [show (2:ℕ) = 1 + 1 from rfl,
      repair_loop_stop assets mw_total 1 _ (by rw [hnew]; simpa using le_of_lt htolpos),
      hnew]
    simpa using le_of_lt htolpos

/-- C1 (amended): site-dispatch allocator conservation.  For a non-empty
asset list with total capacity above `f64::EPSILON`, well-ordered MW limits,
and an initial residual that is either already within tolerance or whose
magnitude is at most the total headroom available in its direction, the
allocation vector returned by `compute_site_allocations` satisfies
`|Σ mw_i − mw_total| ≤ 10⁻⁶` after the at-most-3-pass repair loop. -/
theorem allocator_conservation (assets : List Asset) (mw_total : ℚ)
    (hne : assets ≠ [])
    (hcap : ¬ (assets.map fun a => a.capacity_mwhr).sum ≤ EPS52)
    (hmm : ∀ a ∈ assets, a.min_mw ≤ a.max_mw)
    (hcase : |mw_total - (site_clamped0 assets mw_total).sum| ≤ tolerance ∨
      (tolerance < mw_total - (site_clamped0 assets mw_total).sum ∧
        mw_total - (site_clamped0 assets mw_total).sum ≤
          total_headroom true (site_clamped0 assets mw_total) assets) ∨
      (mw_total - (site_clamped0 assets mw_total).sum < -tolerance ∧
        -(mw_total - (site_clamped0 assets mw_total).sum) ≤
          total_headroom false (site_clamped0 assets mw_total) assets)) :
    |((compute_site_allocations assets mw_total).map fun v => v.mw).sum - mw_total| ≤
      tolerance := by
  have hB := site_clamped0_bounds assets mw_total hmm
  have hcons := repair_loop_conserves assets mw_total hB hcase
  have hlenraw : (site_raw assets mw_total).length = assets.length := by simp [site_raw]
  have hlen1 : (repair_loop assets mw_total 3 (site_clamped0 assets mw_total)).length =
      assets.length :=
    (repair_loop_bounds assets mw_total 3 hB).length_eq
  unfold compute_site_allocations
  dsimp only
  rw [if_neg (by simpa [List.isEmpty_iff] using hne), if_neg hcap,
    build_allocations_map_mw assets _ _ hlenraw hlen1, abs_sub_comm]
  exact hcons

/-- C1 counterexample: the claim's own precondition — a non-empty sorted
list, positive total capacity, and at least one asset with strictly positive
headroom in the residual's direction — does **not** suffice for
conservation.  For the S3/S4 site and `mw_total = 70`, asset A has 22.5 MW
of positive headroom, but the residual 32.5 exceeds it: after the pass A
saturates at 40, B stays at 20, the headroom is exhausted, and the loop
stops with `Σ mw = 60`, i.e. `|Σ mw − 70| = 10 > 10⁻⁶`. -/
theorem allocator_conservation_counterexample :
    cexAssets ≠ [] ∧
    (0:ℚ) < (cexAssets.map fun a => a.capacity_mwhr).sum ∧
    tolerance < 70 - (site_clamped0 cexAssets 70).sum ∧
    0 < total_headroom true (site_clamped0 cexAssets 70) cexAssets ∧
    ¬ |((compute_site_allocations cexAssets 70).map fun v => v.mw).sum - 70| ≤ tolerance := by
  refine ⟨by simp [cexAssets], by norm_num [cexAssets], ?_, ?_, ?_⟩
  · norm_num [site_clamped0, site_raw, cexAssets, clampQ, tolerance]
  · norm_num [site_clamped0, site_raw, total_headroom, headroom_of, cexAssets, clampQ]
  · norm_num [compute_site_allocations, site_clamped0, site_raw, repair_loop, repair_pass,
      pass_update, total_headroom, headroom_of, build_allocations, cexAssets, clampQ,
      tolerance, EPS52, abs_eq_max_neg]

/-- Witness for C1 (amended) at the S4 scenario: `mw_total = 35` over the
same two assets repairs to `A = 15, B = 20` and conserves the total. -/
theorem allocator_conservation_witness :
    |((compute_site_allocations cexAssets 35).map fun v => v.mw).sum - 35| ≤ tolerance :=
  allocator_conservation cexAssets 35
    (by simp [cexAssets])
    (by norm_num [cexAssets, EPS52])
    (by intro a ha; fin_cases ha <;> norm_num [cexAssets])
    (by
      right; left
      constructor <;>
        norm_num [site_clamped0, site_raw, total_headroom, headroom_of, cexAssets,
          clampQ, tolerance, abs_eq_max_neg])

/-! ## Bootstrap responder (`build_bootstrap_response`, C8)

The journal (Postgres) is abstracted as two oracles returning the most
recent row per asset — exactly what the two `SELECT DISTINCT ON (asset_id)
… ORDER BY … DESC` queries produce; a missing database is the oracles being
constantly `none`.  The in-memory `HashMap`s built by the function are
modelled as `ℕ → Option _` with pointwise update. -/

/-- Insert into a map modelled as a function. -/
def mupd {α : Type} (m : ℕ → Option α) (k : ℕ) (v : α) : ℕ → Option α :=
  fun j => if j = k then some v else m j

/-- A `dispatches`-table row as used by the bootstrap query:
`id, asset_id, mw, duration_s`. -/
structure DispatchRow where
  id : ℕ
  asset_id : ℕ
  mw : ℚ
  duration_s : Option ℕ
deriving Repr, DecidableEq

/-- One entry of the `Bootstrap` response. -/
structure AssetBootstrap where
  asset_id : ℕ
  telemetry : Option Telemetry
  setpoint : Option Setpoint
deriving Repr, DecidableEq

/-- `setpoint_from_dispatch` — the active setpoint derived from an
in-memory dispatch record. -/
def setpoint_from_dispatch (d : Dispatch) (a : Asset) : Setpoint :=
  { asset_id := d.asset_id, mw := d.mw, duration_s := d.duration_s,
    site_id := some a.site_id, group_id := none, dispatch_id := some d.id }

/-- `setpoint_from_state` — fall back to the live state's setpoint; `none`
when the setpoint is (numerically) zero. -/
def setpoint_from_state (a : Asset) (s : BessState) : Option Setpoint :=
  if |s.setpoint_mw| ≤ EPS52 then none
  else some { asset_id := a.id, mw := s.setpoint_mw, duration_s := none,
              site_id := some a.site_id, group_id := none, dispatch_id := none }

/-- Stage 1 and 2 share this shape: walk `ids`, inserting `src id` when the
source has a value for it.  (Stage 1: the in-memory `latest` cache over the
requested ids; stage 2: the journal's latest-telemetry query over the
missing ids.) -/
def fill_step {α : Type} (src : ℕ → Option α) (m : ℕ → Option α) (id : ℕ) :
    ℕ → Option α :=
  match src id with
  | some v => mupd m id v
  | none => m

def fill_from {α : Type} (src : ℕ → Option α) (ids : List ℕ) (m0 : ℕ → Option α) :
    ℕ → Option α :=
  ids.foldl (fill_step src) m0

/-- The synthetic zero-advance snapshot for a known asset with live state:
`tick_asset(asset, state.clone(), dt = 0)`. -/
def synthetic_snap (assets : ℕ → Option Asset) (st : ℕ → Option BessState)
    (now : ℕ) (id : ℕ) : Option Telemetry :=
  match assets id, st id with
  | some a, some s => some (tick_asset a s 0 now).2
  | _, _ => none

/-- Stage 3 of the telemetry fill: for each still-missing requested id of a
known asset with live state, insert the synthetic zero-tick snapshot. -/
def synth_step (assets : ℕ → Option Asset) (st : ℕ → Option BessState) (now : ℕ)
    (m : ℕ → Option Telemetry) (id : ℕ) : ℕ → Option Telemetry :=
  if (m id).isSome then m
  else match synthetic_snap assets st now id with
    | some snap => mupd m id snap
    | none => m

def fill_synthetic (assets : ℕ → Option Asset) (st : ℕ → Option BessState)
    (now : ℕ) (ids : List ℕ) (m0 : ℕ → Option Telemetry) : ℕ → Option Telemetry :=
  ids.foldl (synth_step assets st now) m0

/-- Setpoint stage 1: in-memory last dispatch (when the asset is known). -/
def fill_dispatch_setpoints (dispatches : ℕ → Option Dispatch)
    (assets : ℕ → Option Asset) (ids : List ℕ) : ℕ → Option Setpoint :=
  ids.foldl (fun m id =>
    match dispatches id, assets id with
    | some d, some a => mupd m id (setpoint_from_dispatch d a)
    | _, _ => m) (fun _ => none)

/-- Setpoint stage 2: the journal's latest-dispatch query over the missing
ids; rows are inserted under the row's asset id. -/
def fill_journal_setpoints (jd : ℕ → Option DispatchRow) (assets : ℕ → Option Asset)
    (ids : List ℕ) (m0 : ℕ → Option Setpoint) : ℕ → Option Setpoint :=
  let missing := ids.filter fun id => (m0 id).isNone
  missing.foldl (fun m id =>
    match jd id with
    | some row =>
      match assets row.asset_id with
      | some a =>
        mupd m row.asset_id
          { asset_id := row.asset_id, mw := row.mw, duration_s := row.duration_s,
            site_id := some a.site_id, group_id := none, dispatch_id := some row.id }
      | none => m
    | none => m) m0

/-- Setpoint stage 3: non-zero live setpoint in the asset state. -/
def fill_state_setpoints (assets : ℕ → Option Asset) (st : ℕ → Option BessState)
    (ids : List ℕ) (m0 : ℕ → Option Setpoint) : ℕ → Option Setpoint :=
  ids.foldl (fun m id =>
    if (m id).isSome then m
    else match assets id, st id with
      | some a, some s =>
        match setpoint_from_state a s with
        | some sp => mupd m id sp
        | none => m
      | _, _ => m) m0

/-- `build_bootstrap_response` — one entry per requested id, with
`latest_telemetry` filled from the in-memory cache, else the journal's most
recent row, else a synthetic zero-tick (for known assets), and
`active_setpoint` filled from the in-memory last dispatch, else the
journal's most recent dispatch, else a non-zero live setpoint. -/
def build_bootstrap_response (latest : ℕ → Option Telemetry)
    (jt : ℕ → Option Telemetry) (sim : Simulator) (jd : ℕ → Option DispatchRow)
    (now : ℕ) (asset_ids : List ℕ) : List AssetBootstrap :=
  let tm1 := fill_from latest asset_ids (fun _ => none)
  let missing := asset_ids.filter fun id => (tm1 id).isNone
  let tm2 := fill_from jt missing tm1
  let sm1 := fill_dispatch_setpoints sim.dispatches sim.assets asset_ids
  let sm2 := fill_journal_setpoints jd sim.assets asset_ids sm1
  let sm3 := fill_state_setpoints sim.assets sim.state asset_ids sm2
  let tm3 := fill_synthetic sim.assets sim.state now asset_ids tm2
  asset_ids.map fun id => { asset_id := id, telemetry := tm3 id, setpoint := sm3 id }

theorem fill_step_ne {α : Type} (src : ℕ → Option α) (m : ℕ → Option α) (id k : ℕ)
    (h : k ≠ id) : fill_step src m id k = m k := by
  unfold fill_step
  cases src id with
  | some v => simp [mupd, h]
  | none => rfl

theorem fill_step_self {α : Type} (src : ℕ → Option α) (m : ℕ → Option α) (id : ℕ) :
    fill_step src m id id = if (src id).isSome then src id else m id := by
  unfold fill_step
  cases src id with
  | some v => simp [mupd]
  | none => simp

theorem fill_from_lookup {α : Type} (src : ℕ → Option α) (ids : List ℕ) (k : ℕ) :
    ∀ m0 : ℕ → Option α,
      fill_from src ids m0 k = if k ∈ ids ∧ (src k).isSome then src k else m0 k := by
  induction ids with
  | nil => intro m0; simp [fill_from]
  | cons id ids ih =>
    intro m0
    simp only [fill_from, List.foldl_cons] at ih ⊢
    rw [ih]
    by_cases h1 : k ∈ ids ∧ (src k).isSome
    · rw [if_pos h1, if_pos ⟨List.mem_cons_of_mem _ h1.1, h1.2⟩]
    · rw [if_neg h1]
      by_cases h2 : k = id
      · subst h2
        rw [fill_step_self]
        cases hl : src k with
        | some t => simp [hl]
        | none => simp [hl]
      · rw [fill_step_ne _ _ _ _ h2,
          if_neg (fun hc => h1 ⟨(List.mem_cons.mp hc.1).resolve_left h2, hc.2⟩)]

theorem synth_step_ne (assets : ℕ → Option Asset) (st : ℕ → Option BessState)
    (now : ℕ) (m : ℕ → Option Telemetry) (id k : ℕ) (h : k ≠ id) :
    synth_step assets st now m id k = m k := by
  unfold synth_step
  split
  · rfl
  · cases synthetic_snap assets st now id with
    | some t => simp [mupd, h]
    | none => rfl

theorem synth_step_self (assets : ℕ → Option Asset) (st : ℕ → Option BessState)
    (now : ℕ) (m : ℕ → Option Telemetry) (id : ℕ) :
    synth_step assets st now m id id =
      if m id = none then
        (if (synthetic_snap assets st now id).isSome then synthetic_snap assets st now id
         else none)
      else m id := by
  unfold synth_step
  cases hm : m id with
  | some v => simp [hm]
  | none =>
    simp only [hm, Option.isSome_none, Bool.false_eq_true, if_false, if_true]
    cases hs : synthetic_snap assets st now id with
    | some t => simp [mupd, hs]
    | none => simp [hs, hm]

theorem fill_synthetic_lookup (assets : ℕ → Option Asset) (st : ℕ → Option BessState)
    (now : ℕ) (ids : List ℕ) (k : ℕ) :
    ∀ m0 : ℕ → Option Telemetry,
      fill_synthetic assets st now ids m0 k =
        if k ∈ ids ∧ m0 k = none ∧ (synthetic_snap assets st now k).isSome then
          synthetic_snap assets st now k
        else m0 k := by
  induction ids with
  | nil => intro m0; simp [fill_synthetic]
  | cons id ids ih =>
    intro m0
    simp only [fill_synthetic, List.foldl_cons] at ih ⊢
    rw [ih]
    by_cases h2 : k = id
    · subst h2
      rw [synth_step_self]
      cases hm : m0 k with
      | some v => simp [hm]
      | none =>
        simp only [hm]
        cases hs : synthetic_snap assets st now k with
        | some t => simp [hs]
        | none => simp [hs]
    · rw [synth_step_ne _ _ _ _ _ _ h2]
      by_cases h1 : k ∈ ids ∧ m0 k = none ∧ (synthetic_snap assets st now k).isSome
      · rw [if_pos h1, if_pos ⟨List.mem_cons_of_mem _ h1.1, h1.2⟩]
      · rw [if_neg h1,
          if_neg (fun hc => h1 ⟨(List.mem_cons.mp hc.1).resolve_left h2, hc.2⟩)]

theorem synthetic_snap_isSome (assets : ℕ → Option Asset) (st : ℕ → Option BessState)
    (now : ℕ) (id : ℕ) :
    (synthetic_snap assets st now id).isSome ↔
      (assets id).isSome ∧ (st id).isSome := by
  unfold synthetic_snap
  cases assets id <;> cases st id <;> simp

theorem telemetry_chain_isSome (latest jt : ℕ → Option Telemetry)
    (assets : ℕ → Option Asset) (st : ℕ → Option BessState) (now : ℕ)
    (ids : List ℕ) (id : ℕ) (hid : id ∈ ids) :
    (fill_synthetic assets st now ids
        (fill_from jt (ids.filter fun j => ((fill_from latest ids fun _ => none) j).isNone)
          (fill_from latest ids fun _ => none)) id).isSome ↔
      (latest id).isSome ∨ (jt id).isSome ∨
        ((assets id).isSome ∧ (st id).isSome) := by
  have h1 := fill_from_lookup latest ids id (fun _ => none)
  have h2 := fill_from_lookup jt
    (ids.filter fun j => ((fill_from latest ids fun _ => none) j).isNone) id
    (fill_from latest ids fun _ => none)
  have h3 := fill_synthetic_lookup assets st now ids id
    (fill_from jt (ids.filter fun j => ((fill_from latest ids fun _ => none) j).isNone)
      (fill_from latest ids fun _ => none))
  simp only [h3, h2, h1, List.mem_filter, Option.isNone_iff_eq_none, synthetic_snap_isSome]
  by_cases hl : (latest id).isSome
  · obtain ⟨v, hv⟩ := Option.isSome_iff_exists.mp hl
    simp [hid, hl, hv]
  · have hl' : latest id = none := Option.not_isSome_iff_eq_none.mp hl
    by_cases hj : (jt id).isSome
    · obtain ⟨v, hv⟩ := Option.isSome_iff_exists.mp hj
      simp [hid, hl, hl', hj, hv]
    · have hj' : jt id = none := Option.not_isSome_iff_eq_none.mp hj
      by_cases ha : (assets id).isSome ∧ (st id).isSome
      · simp [hid, hl, hl', hj, hj', ha, synthetic_snap_isSome]
      · simp [hid, hl, hl', hj, hj', ha]

/-- C8 (amended): bootstrap totality.  `build_bootstrap_response` returns
exactly one entry per requested id, in order; an entry's telemetry field is
populated precisely when the id has a cached snapshot, a journal row, or is
a known asset with live simulator state — drawn from those sources in that
order.  (For an id unknown everywhere, the entry exists with an empty
telemetry field.) -/
theorem bootstrap_totality (latest jt : ℕ → Option Telemetry) (sim : Simulator)
    (jd : ℕ → Option DispatchRow) (now : ℕ) (asset_ids : List ℕ) :
    ((build_bootstrap_response latest jt sim jd now asset_ids).map fun e => e.asset_id) =
      asset_ids ∧
    ∀ e ∈ build_bootstrap_response latest jt sim jd now asset_ids,
      (e.telemetry.isSome ↔
        (latest e.asset_id).isSome ∨ (jt e.asset_id).isSome ∨
          ((sim.assets e.asset_id).isSome ∧ (sim.state e.asset_id).isSome)) := by
  constructor
  · unfold build_bootstrap_response
    dsimp only
    simp [List.map_map]
    exact List.map_id asset_ids
  · intro e he
    unfold build_bootstrap_response at he
    dsimp only at he
    rw [List.mem_map] at he
    obtain ⟨id, hid, rfl⟩ := he
    dsimp only
    exact telemetry_chain_isSome latest jt sim.assets sim.state now asset_ids id hid

/-- The empty simulator. -/
def emptySim : Simulator :=
  { assets := fun _ => none, state := fun _ => none, dispatches := fun _ => none }

/-- C8 counterexample: for a requested id that is in no cache, no journal
and not a known asset, the returned entry exists but its telemetry field is
**empty** — refuting "each entry's telemetry field is populated" for every
requested id list. -/
theorem bootstrap_totality_counterexample :
    build_bootstrap_response (fun _ => none) (fun _ => none) emptySim (fun _ => none) 0 [7] =
      [{ asset_id := 7, telemetry := none, setpoint := none }] := by
  rfl

/-- Witness for C8 (amended) at a concrete input: requesting the known
asset 1 of `simAtMinSoc` with empty caches and journal yields the one entry,
and its telemetry field is populated (via the synthetic zero-tick). -/
theorem bootstrap_totality_witness :
    ((build_bootstrap_response (fun _ => none) (fun _ => none) simAtMinSoc
        (fun _ => none) 0 [1]).map fun e => e.asset_id) = [1] ∧
    ∀ e ∈ build_bootstrap_response (fun _ => none) (fun _ => none) simAtMinSoc
        (fun _ => none) 0 [1],
      (e.telemetry.isSome ↔
        ((fun _ => (none : Option Telemetry)) e.asset_id).isSome ∨
          ((fun _ => (none : Option Telemetry)) e.asset_id).isSome ∨
          ((simAtMinSoc.assets e.asset_id).isSome ∧
            (simAtMinSoc.state e.asset_id).isSome)) :=
  bootstrap_totality (fun _ => none) (fun _ => none) simAtMinSoc (fun _ => none) 0 [1]
